import Mathlib

/-!
Verification of the `local_llm` package (a minimal client for a locally
hosted llama-server plus a process launcher) against its design spec.

The Python sources are shallowly embedded: pure string manipulation is
translated to Lean string/list functions; subprocess and HTTP effects are
made explicit, with the outside world (health probes, HTTP responses,
filesystem existence) passed in as oracle functions and the side effects
of each operation (spawn, signals, prints, sleeps) returned as explicit
effect lists.  Real-time durations are abstracted: a polling window
becomes a fuel argument counting the number of poll iterations that fit
in it, and sleep durations are recorded as rational values.
-/

namespace LocalLLM

/-! ### Grammar escaping (`client.multiple_choice_grammar._esc`)

The source applies, in order,
`s.replace("\\", "\\\\").replace("\"", "\\\"")` and then
`s.replace("\n", "\\n").replace("\t", "\\t")`.
Each replacement target is a single character of the original string, the
four targets are distinct, and no replacement string contains a later
target, so the chain of replaces acts independently on each character of
the input; `escChar` is exactly that per-character action. -/

def escChar (c : Char) : List Char :=
  if c = '\\' then ['\\', '\\']
  else if c = '"' then ['\\', '"']
  else if c = '\n' then ['\\', 'n']
  else if c = '\t' then ['\\', 't']
  else [c]

def escList : List Char → List Char
  | [] => []
  | c :: rest => escChar c ++ escList rest

/-- The escaping performed by `_esc` in `client.py`. -/
def esc (s : String) : String := ⟨escList s.data⟩

/-- Decoder for `escList`: interprets the escape sequences the encoder
emits (`\\\\`, `\\"`, `\\n`, `\\t`) and leaves every other character,
including a backslash not starting a recognized escape, unchanged. -/
def unescList : List Char → List Char
  | [] => []
  | c :: rest =>
    if c = '\\' then
      match rest with
      | [] => ['\\']
      | d :: rest2 =>
        if d = '\\' then '\\' :: unescList rest2
        else if d = '"' then '"' :: unescList rest2
        else if d = 'n' then '\n' :: unescList rest2
        else if d = 't' then '\t' :: unescList rest2
        else '\\' :: unescList (d :: rest2)
    else c :: unescList rest
termination_by l => l.length
decreasing_by
all_goals simp
all_goals omega

/-- Decoder on strings. -/
def unesc (s : String) : String := ⟨unescList s.data⟩

theorem unescList_escList (l : List Char) : unescList (escList l) = l := by
  induction l with
  | nil => simp [escList, unescList]
  | cons c rest ih =>
    by_cases h1 : c = '\\'
    · subst h1; simp [escList, escChar, unescList, ih]
    · by_cases h2 : c = '"'
      · subst h2; simp [escList, escChar, unescList, ih]
      · by_cases h3 : c = '\n'
        · subst h3; simp [escList, escChar, unescList, ih]
        · by_cases h4 : c = '\t'
          · subst h4; simp [escList, escChar, unescList, ih]
          · have he : escList (c :: rest) = c :: escList rest := by
              simp [escList, escChar, h1, h2, h3, h4]
            rw [he, unescList.eq_def]
            simp [h1, ih]

theorem unesc_esc_aux (s : String) : unesc (esc s) = s := by
  cases s with
  | mk data => simp [esc, unesc, unescList_escList]

/-- C6: the escaping applied by the grammar generator (backslashes, double
quotes, newline and tab) is reversible: the decoder `unesc` recovers the
original choice string from its escaped form, for every input string. -/
theorem c6_esc_roundtrip (s : String) : unesc (esc s) = s :=
  unesc_esc_aux s

/-! ### Process handle (`server.ServerHandle`)

A `ServerHandle` wraps a `subprocess.Popen`; the only observable state of
the child used by the handle operations is `process.poll()`, which is
`None` while the child runs and its exit code afterwards.  Signals sent
with `os.killpg` are recorded as effects.  The outcomes of the calls the
handle makes into the OS (`process.wait(timeout)` succeeding or raising,
the state of the process after a SIGKILL) are supplied by a `TermEnv`
oracle.  Both `terminate` and `kill` wrap their OS calls in
`try/except`-with-fallback (`terminate` escalates to `kill`; `kill`
swallows any `killpg` error), so neither ever raises: the embeddings are
total functions with no error alternative. -/

inductive Sig
  | sigterm
  | sigkill
deriving DecidableEq, Repr

inductive Effect
  | prependHomebrewPath
  | setEnv (k v : String)
  | spawn (args : List String)
  | printTail (s : String)
  | killpg (pid : Nat) (s : Sig)
deriving DecidableEq, Repr

/-- Observable state of the wrapped child process: `process.poll()`. -/
structure ProcState where
  pollResult : Option Int
deriving DecidableEq, Repr

/-- Oracle for the OS interactions of `terminate`/`kill`. -/
structure TermEnv where
  pid : Nat
  /-- `some code`: after `killpg(SIGTERM)`, `process.wait(timeout)` returns
  and the process has exit code `code`.  `none`: `killpg` or `wait` raised
  (e.g. `TimeoutExpired`), so `terminate` escalates to `kill`. -/
  termOutcome : Option Int
  /-- `process.poll()` after a `killpg(SIGKILL)` attempt. -/
  afterKill : Option Int

/-- `ServerHandle.is_alive`. -/
def is_alive (st : ProcState) : Bool := st.pollResult.isNone

/-- `ServerHandle.kill`: `if self.is_alive(): try: os.killpg(pid, SIGKILL)
except: pass`. -/
def kill (E : TermEnv) (st : ProcState) : ProcState × List Effect :=
  if is_alive st then ({ pollResult := E.afterKill }, [Effect.killpg E.pid Sig.sigkill])
  else (st, [])

/-- `ServerHandle.terminate`: returns immediately when the child already
exited; otherwise sends SIGTERM to the process group and waits, escalating
to `kill` if that raises. -/
def terminate (E : TermEnv) (st : ProcState) : ProcState × List Effect :=
  if ¬ is_alive st then (st, [])
  else
    match E.termOutcome with
    | some code => ({ pollResult := some code }, [Effect.killpg E.pid Sig.sigterm])
    | none =>
      let k := kill E st
      (k.1, Effect.killpg E.pid Sig.sigterm :: k.2)

/-- C4: once the child process has exited, `is_alive` is false and both
`terminate` and `kill` are idempotent no-ops: any number of calls leaves
the state unchanged and performs no OS action (and neither can raise, as
both are total). -/
theorem c4_terminate_kill_noop_after_exit (E : TermEnv) (st : ProcState) (c : Int)
    (h : st.pollResult = some c) :
    is_alive st = false ∧
    terminate E st = (st, []) ∧
    kill E st = (st, []) ∧
    (∀ n : Nat, (fun s => (terminate E s).1)^[n] st = st) ∧
    (∀ n : Nat, (fun s => (kill E s).1)^[n] st = st) := by
  have hdead : is_alive st = false := by simp [is_alive, h]
  refine ⟨hdead, ?_, ?_, ?_, ?_⟩
  · simp [terminate, hdead]
  · simp [kill, hdead]
  · intro n
    induction n with
    | zero => rfl
    | succ m ihm => rw [Function.iterate_succ_apply, show (terminate E st).1 = st by simp [terminate, hdead], ihm]
  · intro n
    induction n with
    | zero => rfl
    | succ m ihm => rw [Function.iterate_succ_apply, show (kill E st).1 = st by simp [kill, hdead], ihm]

/-- Closed witness for `c4_terminate_kill_noop_after_exit`. -/
theorem c4_terminate_kill_noop_after_exit_witness :
    is_alive ⟨some 0⟩ = false ∧
    terminate ⟨1, none, none⟩ ⟨some 0⟩ = (⟨some 0⟩, []) ∧
    kill ⟨1, none, none⟩ ⟨some 0⟩ = (⟨some 0⟩, []) ∧
    (∀ n : Nat, (fun s => (terminate ⟨1, none, none⟩ s).1)^[n] ⟨some 0⟩ = ⟨some 0⟩) ∧
    (∀ n : Nat, (fun s => (kill ⟨1, none, none⟩ s).1)^[n] ⟨some 0⟩ = ⟨some 0⟩) :=
  c4_terminate_kill_noop_after_exit ⟨1, none, none⟩ ⟨some 0⟩ 0 rfl

/-! ### Health wait (`server._wait_health`)

The loop polls once per iteration: it first checks `proc.poll()`, raising
`ServerLaunchError` with the tail of the captured output if the child
exited; then tries `GET /health`, returning on HTTP 200 (any network
error is swallowed); then sleeps 0.25 s and repeats, until the overall
timeout window elapses, when it raises `TimeoutError`.  The real-time
window is abstracted to a fuel argument: the number of poll iterations
that fit in `timeout` seconds.  What the world looks like at the i-th
iteration is an oracle value `HealthObs`; the timeout and port only reach
the error message, so they are passed as their string renderings. -/

/-- What `_wait_health` observes in one loop iteration.
`exited = some r` models `proc.poll() is not None`, where `r = some lines`
means `proc.stdout.readlines()` returned `lines` and `r = none` means
reading the captured output itself raised.  `healthOk` models the
`/health` request completing with status 200. -/
structure HealthObs where
  exited : Option (Option (List String))
  healthOk : Bool

/-- The diagnostic tail: `"".join(readlines()[-200:])`, or the fallback
text when reading raised. -/
def tailStr : Option (List String) → String
  | none => "(no output)"
  | some lines => String.join (lines.drop (lines.length - 200))

def launchErrMsg (r : Option (List String)) : String :=
  "llama-server exited early before healthy. Last output:\n" ++ tailStr r

def timeoutErrMsg (timeoutStr portStr : String) : String :=
  "Server did not report healthy within " ++ timeoutStr ++ "s on port " ++ portStr

inductive WaitOutcome
  | healthy
  | launchError (msg : String)
  | timeoutError (msg : String)
deriving DecidableEq, Repr

/-- `server._wait_health`, with the polling window abstracted to `fuel`
iterations and the 0.25 s sleeps of completed iterations returned as a
list of durations. -/
def wait_health (timeoutStr portStr : String) : (Nat → HealthObs) → Nat → WaitOutcome × List ℚ
  | _, 0 => (WaitOutcome.timeoutError (timeoutErrMsg timeoutStr portStr), [])
  | obs, fuel + 1 =>
    match (obs 0).exited with
    | some r => (WaitOutcome.launchError (launchErrMsg r), [])
    | none =>
      if (obs 0).healthOk then (WaitOutcome.healthy, [])
      else
        ((wait_health timeoutStr portStr (fun j => obs (j + 1)) fuel).1,
         (1 / 4 : ℚ) :: (wait_health timeoutStr portStr (fun j => obs (j + 1)) fuel).2)

theorem wait_health_returns_healthy (timeoutStr portStr : String) :
    ∀ (fuel k : Nat) (obs : Nat → HealthObs), k < fuel →
    (∀ j < k, (obs j).exited = none ∧ (obs j).healthOk = false) →
    (obs k).exited = none → (obs k).healthOk = true →
    (wait_health timeoutStr portStr obs fuel).1 = WaitOutcome.healthy := by
  intro fuel
  induction fuel with
  | zero => intro k obs hk; omega
  | succ m ih =>
    intro k obs hk hpre hex hok
    cases k with
    | zero => simp [wait_health, hex, hok]
    | succ k2 =>
      have h0 := hpre 0 (Nat.succ_pos k2)
      simp [wait_health, h0.1, h0.2]
      exact ih k2 (fun j => obs (j + 1)) (Nat.lt_of_succ_lt_succ hk)
        (fun j hj => hpre (j + 1) (Nat.succ_lt_succ hj)) hex hok

theorem wait_health_exit_early (timeoutStr portStr : String) :
    ∀ (fuel k : Nat) (obs : Nat → HealthObs) (t : Option (List String)), k < fuel →
    (∀ j < k, (obs j).exited = none ∧ (obs j).healthOk = false) →
    (obs k).exited = some t →
    (wait_health timeoutStr portStr obs fuel).1 =
      WaitOutcome.launchError (launchErrMsg t) := by
  intro fuel
  induction fuel with
  | zero => intro k obs t hk; omega
  | succ m ih =>
    intro k obs t hk hpre hex
    cases k with
    | zero => simp [wait_health, hex]
    | succ k2 =>
      have h0 := hpre 0 (Nat.succ_pos k2)
      simp [wait_health, h0.1, h0.2]
      exact ih k2 (fun j => obs (j + 1)) t (Nat.lt_of_succ_lt_succ hk)
        (fun j hj => hpre (j + 1) (Nat.succ_lt_succ hj)) hex

theorem wait_health_times_out (timeoutStr portStr : String) :
    ∀ (fuel : Nat) (obs : Nat → HealthObs),
    (∀ j < fuel, (obs j).exited = none ∧ (obs j).healthOk = false) →
    (wait_health timeoutStr portStr obs fuel).1 =
      WaitOutcome.timeoutError (timeoutErrMsg timeoutStr portStr) := by
  intro fuel
  induction fuel with
  | zero => intro obs _; rfl
  | succ m ih =>
    intro obs hall
    have h0 := hall 0 (Nat.succ_pos m)
    simp [wait_health, h0.1, h0.2]
    exact ih (fun j => obs (j + 1)) (fun j hj => hall (j + 1) (Nat.succ_lt_succ hj))

theorem wait_health_sleeps_fixed (timeoutStr portStr : String) :
    ∀ (fuel : Nat) (obs : Nat → HealthObs),
    ∀ d ∈ (wait_health timeoutStr portStr obs fuel).2, d = (1 / 4 : ℚ) := by
  intro fuel
  induction fuel with
  | zero => intro obs d hd; simp [wait_health] at hd
  | succ m ih =>
    intro obs d hd
    rw [wait_health] at hd
    rcases hex : (obs 0).exited with _ | r
    · rw [hex] at hd
      simp only at hd
      by_cases hok : (obs 0).healthOk = true
      · simp [hok] at hd
      · rw [if_neg hok] at hd
        simp only [List.mem_cons] at hd
        rcases hd with hd | hd
        · exact hd
        · exact ih (fun j => obs (j + 1)) d hd
    · rw [hex] at hd; simp at hd

/-- C1: the health wait has exactly three outcomes.  If the child has not
exited and health has not succeeded at any iteration before `k`, then:
it returns `healthy` as soon as the `/health` probe succeeds at `k`; it
raises a launch error whose message embeds the tail of the captured child
output if the child is seen exited at `k`; and if neither ever happens
within the window (`fuel` iterations) it raises the timeout error.  Every
sleep between polls is the fixed 0.25 s interval. -/
theorem c1_wait_health_trichotomy (timeoutStr portStr : String) (fuel : Nat)
    (obs : Nat → HealthObs) :
    (∀ k < fuel, (∀ j < k, (obs j).exited = none ∧ (obs j).healthOk = false) →
      (obs k).exited = none → (obs k).healthOk = true →
      (wait_health timeoutStr portStr obs fuel).1 = WaitOutcome.healthy) ∧
    (∀ k < fuel, ∀ t, (∀ j < k, (obs j).exited = none ∧ (obs j).healthOk = false) →
      (obs k).exited = some t →
      (wait_health timeoutStr portStr obs fuel).1 =
        WaitOutcome.launchError (launchErrMsg t)) ∧
    ((∀ j < fuel, (obs j).exited = none ∧ (obs j).healthOk = false) →
      (wait_health timeoutStr portStr obs fuel).1 =
        WaitOutcome.timeoutError (timeoutErrMsg timeoutStr portStr)) ∧
    (∀ d ∈ (wait_health timeoutStr portStr obs fuel).2, d = (1 / 4 : ℚ)) :=
  ⟨fun k hk hpre hex hok =>
      wait_health_returns_healthy timeoutStr portStr fuel k obs hk hpre hex hok,
   fun k hk t hpre hex =>
      wait_health_exit_early timeoutStr portStr fuel k obs t hk hpre hex,
   fun hall => wait_health_times_out timeoutStr portStr fuel obs hall,
   fun d hd => wait_health_sleeps_fixed timeoutStr portStr fuel obs d hd⟩

/-- Closed witness for `c1_wait_health_trichotomy`: a run whose first
iteration sees the child still alive and unhealthy and whose second sees
a successful health probe returns `healthy`. -/
theorem c1_wait_health_trichotomy_witness :
    (wait_health "30.0" "8080"
      (fun j => if j = 0 then ⟨none, false⟩ else ⟨none, true⟩) 3).1 =
      WaitOutcome.healthy :=
  (c1_wait_health_trichotomy "30.0" "8080" 3
      (fun j => if j = 0 then ⟨none, false⟩ else ⟨none, true⟩)).1
    1 (by decide)
    (fun j hj => by
      have hj0 : j = 0 := by omega
      subst hj0; exact ⟨rfl, rfl⟩)
    rfl rfl

/-! ### Chat request with retry (`client.get_response`)

Each loop attempt calls the OpenAI client and either gets a message back
or an exception; the code dispatches on the exception class exactly as
modelled by `Resp`: `InternalServerError` (5xx; retried with the fixed
delay when its text contains `"Loading model"`, re-raised otherwise),
`BadRequestError` (400; wrapped in a `RuntimeError` carrying the response
body and raised immediately), and any other exception (client-side, e.g.
a connection failure; recorded and retried).  After `retries` attempts a
`RuntimeError` aggregating the last recorded failure is raised.  The i-th
attempt's outcome is an oracle value `tr i`; sleeps are returned as a
list of durations. -/

inductive Resp
  | success (text : String)
  | internalServerError (msg : String)
  | badRequestError (body : String)
  | otherError (msg : String)
deriving DecidableEq, Repr

inductive GetResult
  | ok (text : String)
  | raisedISE (msg : String)
  | runtimeError (msg : String)
deriving DecidableEq, Repr

/-- Decidable substring test on character lists, used for Python's
`needle in haystack`. -/
def substrIn (needle : List Char) : List Char → Bool
  | [] => needle.isEmpty
  | c :: rest => needle.isPrefixOf (c :: rest) || substrIn needle rest

def strContains (hay needle : String) : Bool := substrIn needle.data hay.data

/-- The `'Loading model' in str(e)` test of `get_response`. -/
def isLoadingMsg (m : String) : Bool := strContains m "Loading model"

/-- `str(last_err)`: `str(None)` is `"None"`, an exception renders as its
message. -/
def optErrStr : Option String → String
  | none => "None"
  | some m => m

def exhaustedMsg (retries : Nat) (lastErr : Option String) : String :=
  "Failed after " ++ toString retries ++ " attempts; last error: " ++ optErrStr lastErr

def badRequestMsg (body : String) : String :=
  "400 Bad Request from server. Body: " ++ body

/-- The retry loop of `get_response`: `n` attempts remain, `retriesTotal`
only reaches the exhaustion message, `lastErr` is the `last_err`
variable.  On success the content is returned `.strip()`-ed. -/
def get_response_go (delay : ℚ) (retriesTotal : Nat) :
    (Nat → Resp) → Nat → Option String → GetResult × List ℚ
  | _, 0, lastErr => (GetResult.runtimeError (exhaustedMsg retriesTotal lastErr), [])
  | tr, n + 1, lastErr =>
    match tr 0 with
    | Resp.success t => (GetResult.ok t.trim, [])
    | Resp.internalServerError m =>
      if isLoadingMsg m then
        ((get_response_go delay retriesTotal (fun j => tr (j + 1)) n (some m)).1,
         delay :: (get_response_go delay retriesTotal (fun j => tr (j + 1)) n (some m)).2)
      else (GetResult.raisedISE m, [])
    | Resp.badRequestError body => (GetResult.runtimeError (badRequestMsg body), [])
    | Resp.otherError m =>
      ((get_response_go delay retriesTotal (fun j => tr (j + 1)) n (some m)).1,
       delay :: (get_response_go delay retriesTotal (fun j => tr (j + 1)) n (some m)).2)

/-- `client.get_response`, abstracted over the per-attempt outcomes. -/
def get_response (tr : Nat → Resp) (retries : Nat) (delay : ℚ) : GetResult × List ℚ :=
  get_response_go delay retries tr retries none

/-- `last_err` after the first `n` attempts, given the attempt outcomes. -/
def lastErrAfter (tr : Nat → Resp) : Nat → Option String → Option String
  | 0, lastErr => lastErr
  | k + 1, lastErr =>
    match tr k with
    | Resp.internalServerError m => some m
    | Resp.otherError m => some m
    | _ => lastErr

theorem go_success_after_loading (delay : ℚ) (R : Nat) :
    ∀ (n k : Nat) (tr : Nat → Resp) (lastErr : Option String) (t : String), k < n →
    (∀ j < k, ∃ m, tr j = Resp.internalServerError m ∧ isLoadingMsg m = true) →
    tr k = Resp.success t →
    get_response_go delay R tr n lastErr = (GetResult.ok t.trim, List.replicate k delay) := by
  intro n
  induction n with
  | zero => intro k tr lastErr t hk; omega
  | succ n2 ih =>
    intro k tr lastErr t hk hpre hs
    cases k with
    | zero => simp [get_response_go, hs]
    | succ k2 =>
      obtain ⟨m0, hm0, hl0⟩ := hpre 0 (Nat.succ_pos k2)
      have hrec := ih k2 (fun j => tr (j + 1)) (some m0) t (Nat.lt_of_succ_lt_succ hk)
        (fun j hj => hpre (j + 1) (Nat.succ_lt_succ hj)) hs
      simp [get_response_go, hm0, hl0, hrec, List.replicate_succ]

theorem go_all_loading (delay : ℚ) (R : Nat) :
    ∀ (n : Nat) (tr : Nat → Resp) (lastErr : Option String),
    (∀ j < n, ∃ m, tr j = Resp.internalServerError m ∧ isLoadingMsg m = true) →
    get_response_go delay R tr n lastErr =
      (GetResult.runtimeError (exhaustedMsg R (lastErrAfter tr n lastErr)),
       List.replicate n delay) := by
  intro n
  induction n with
  | zero => intro tr lastErr _; simp [get_response_go, lastErrAfter]
  | succ n2 ih =>
    intro tr lastErr hall
    obtain ⟨m0, hm0, hl0⟩ := hall 0 (Nat.succ_pos n2)
    have hrec := ih (fun j => tr (j + 1)) (some m0)
      (fun j hj => hall (j + 1) (Nat.succ_lt_succ hj))
    have hlast : lastErrAfter (fun j => tr (j + 1)) n2 (some m0) =
        lastErrAfter tr (n2 + 1) lastErr := by
      cases n2 with
      | zero => simp [lastErrAfter, hm0]
      | succ k =>
        obtain ⟨mk2, hmk2, _⟩ := hall (k + 1) (by omega)
        simp [lastErrAfter, hmk2]
    simp [get_response_go, hm0, hl0, hrec, hlast, List.replicate_succ]

/-- C3: the retry behaviour of `get_response`.  (i) If the first `k`
attempts all hit the transient "Loading model" condition and attempt `k`
succeeds within the retry bound, the stripped success text is returned
and exactly `k` fixed-length delays were slept.  (ii) A malformed-request
(400) response on the first attempt raises the wrapped error carrying the
response body immediately, with no retry and no sleep, whatever the later
attempts would have returned.  (iii) A non-transient internal server
error is re-raised immediately, with no retry.  (iv) If every attempt up
to the bound hits the loading condition, the aggregate error names the
retry count and the last underlying failure. -/
theorem c3_get_response_retry (tr : Nat → Resp) (retries : Nat) (delay : ℚ) :
    (∀ k < retries,
      (∀ j < k, ∃ m, tr j = Resp.internalServerError m ∧ isLoadingMsg m = true) →
      ∀ t, tr k = Resp.success t →
      get_response tr retries delay = (GetResult.ok t.trim, List.replicate k delay)) ∧
    (0 < retries → ∀ body, tr 0 = Resp.badRequestError body →
      get_response tr retries delay =
        (GetResult.runtimeError (badRequestMsg body), [])) ∧
    (0 < retries → ∀ m, tr 0 = Resp.internalServerError m → isLoadingMsg m = false →
      get_response tr retries delay = (GetResult.raisedISE m, [])) ∧
    ((∀ j < retries, ∃ m, tr j = Resp.internalServerError m ∧ isLoadingMsg m = true) →
      ∀ m2, tr (retries - 1) = Resp.internalServerError m2 → 0 < retries →
      get_response tr retries delay =
        (GetResult.runtimeError (exhaustedMsg retries (some m2)),
         List.replicate retries delay)) := by
  refine ⟨?_, ?_, ?_, ?_⟩
  · intro k hk hpre t hs
    exact go_success_after_loading delay retries retries k tr none t hk hpre hs
  · intro hpos body hb
    cases retries with
    | zero => omega
    | succ n2 => simp [get_response, get_response_go, hb]
  · intro hpos m hm hnl
    cases retries with
    | zero => omega
    | succ n2 => simp [get_response, get_response_go, hm, hnl]
  · intro hall m2 hm2 hpos
    have h := go_all_loading delay retries retries tr none hall
    cases retries with
    | zero => omega
    | succ n2 =>
      rw [get_response, h]
      have : lastErrAfter tr (n2 + 1) none = some m2 := by
        simp only [lastErrAfter]
        rw [show tr n2 = Resp.internalServerError m2 from hm2]
      rw [this]

/-- Closed witness for `c3_get_response_retry`: two loading responses
followed by a success return the stripped success text after two fixed
delays. -/
theorem c3_get_response_retry_witness :
    get_response
      (fun j => if j < 2 then Resp.internalServerError "503 Loading model"
                else Resp.success " ok ") 30 (1 / 2) =
      (GetResult.ok " ok ".trim, List.replicate 2 (1 / 2 : ℚ)) :=
  (c3_get_response_retry
      (fun j => if j < 2 then Resp.internalServerError "503 Loading model"
                else Resp.success " ok ") 30 (1 / 2)).1
    2 (by norm_num)
    (fun j hj => ⟨"503 Loading model", by rw [if_pos hj], by decide⟩)
    " ok " (by norm_num)

/-! ### Grammar generation (`client.multiple_choice_grammar`)

The function validates its inputs, renders one of two fixed grammar
templates, writes the text to `save_dir / filename` and returns the very
same text.  A successful run is modelled as a `GrammarOutput` record
whose single `content` field stands for both the written file body and
the returned value, which is faithful because the source writes and
returns the same local variable `content`; on the error paths the
function raises before any filesystem access, so `Except.error` carries
no output record.  Choices reach the template through `str(c)`, the
identity on strings. -/

/-- The tail of `_IDENT_RE`: zero or more `[A-Za-z0-9_]` characters,
followed by Python's `$`, which in non-MULTILINE mode matches at the end
of the string or just before a single trailing newline.  So the tail may
end in one final `'\n'` that `$` skips. -/
def identTail : List Char → Bool
  | [] => true
  | ['\n'] => true
  | d :: rest => (d.isAlphanum || d = '_') && identTail rest

/-- The truthiness of `_IDENT_RE.match(name)` for the regular expression
`^[A-Za-z_][A-Za-z0-9_]*$`: first an identifier head character, then
`identTail`.  Because `$` (not `\Z`) ends the pattern, a name consisting
of an identifier plus one trailing newline, such as `"label\n"`, is
accepted by the source. -/
def isValidIdent (s : String) : Bool :=
  match s.data with
  | [] => false
  | c :: rest => (c.isAlpha || c = '_') && identTail rest

/-- The alternation body: `" | ".join(f'"{_esc(str(c))}"' for c in choices)`. -/
def altsOf (choices : List String) : String :=
  String.intercalate " | " (choices.map fun c => "\"" ++ esc c ++ "\"")

/-- The template used when `thinking` is set: a thinking block bounded by
one of two recognized start/end marker pairs, followed by the choice
rule. -/
def thinkingContent (name alts : String) : String :=
  "root ::=  thinkingBlock " ++ name ++
  "\nthinkingBlock ::= thinkingStart anychar* thinkingEnd" ++
  "\nthinkingStart ::= \"<|channel|>analysis<|message|>\" | \"<think>\"" ++
  "\nthinkingEnd ::= \"<|end|><|start|>assistant<|channel|>final<|message|>\\n\" | \"</think>\\n\"" ++
  "\n" ++ name ++ " ::= " ++ alts ++
  "\nanychar ::= [^<]\n"

/-- The template used when `thinking` is not set. -/
def plainContent (name alts : String) : String :=
  "root ::=  " ++ name ++ "\n" ++ name ++ " ::= " ++ alts ++ "\n"

structure GrammarOutput where
  content : String
  saveDir : String
  filename : String
deriving DecidableEq, Repr

def multiple_choice_grammar (choices : List String) (save_dir name : String)
    (thinking : Bool) : Except String GrammarOutput :=
  if choices.isEmpty then Except.error "choices must be non-empty"
  else if ¬ isValidIdent name then Except.error "name must be a valid rule identifier"
  else
    let alts := altsOf choices
    if thinking then
      Except.ok ⟨thinkingContent name alts, save_dir, "thinking_" ++ name ++ ".gbnf"⟩
    else
      Except.ok ⟨plainContent name alts, save_dir, name ++ ".gbnf"⟩

/-- Language of a GBNF alternation of literal terminals, given the
escaped bodies of the literals as they appear between the double quotes:
a GBNF literal matches exactly the unescaped form of its body. -/
def altLangMem (lits : List String) (s : String) : Prop := ∃ l ∈ lits, s = unesc l

theorem altLang_exact (choices : List String) (s : String) :
    altLangMem (choices.map esc) s ↔ s ∈ choices := by
  constructor
  · rintro ⟨l, hl, hs⟩
    obtain ⟨c, hc, rfl⟩ := List.mem_map.mp hl
    rw [hs, unesc_esc_aux]; exact hc
  · intro hc
    exact ⟨esc s, List.mem_map.mpr ⟨s, hc, rfl⟩, (unesc_esc_aux s).symm⟩

/-- Case analysis of `multiple_choice_grammar`: an empty choice list and
a name failing the source's `_IDENT_RE` test raise the corresponding
validation errors before any file is written; when the source accepts,
the file is written into the caller's directory under
`thinking_<name>.gbnf` exactly when the thinking flag is set and
`<name>.gbnf` otherwise, the written text is the returned text, the text
follows the thinking template exactly when the flag is set, and the
alternation of the choice rule accepts exactly the given literals (each
escaped; a literal matches the unescape of its body). -/
theorem multiple_choice_grammar_cases (choices : List String) (save_dir name : String)
    (thinking : Bool) :
    (choices = [] →
      multiple_choice_grammar choices save_dir name thinking =
        Except.error "choices must be non-empty") ∧
    (choices ≠ [] → isValidIdent name = false →
      multiple_choice_grammar choices save_dir name thinking =
        Except.error "name must be a valid rule identifier") ∧
    (choices ≠ [] → isValidIdent name = true →
      ∃ out, multiple_choice_grammar choices save_dir name thinking = Except.ok out ∧
        out.saveDir = save_dir ∧
        out.filename =
          (if thinking then "thinking_" ++ name ++ ".gbnf" else name ++ ".gbnf") ∧
        out.content =
          (if thinking then thinkingContent name (altsOf choices)
           else plainContent name (altsOf choices)) ∧
        (∀ s, altLangMem (choices.map esc) s ↔ s ∈ choices)) := by
  refine ⟨?_, ?_, ?_⟩
  · intro h; subst h; rfl
  · intro hne hid
    have h1 : choices.isEmpty = false := by
      cases choices with
      | nil => exact absurd rfl hne
      | cons a l => rfl
    simp [multiple_choice_grammar, h1, hid]
  · intro hne hid
    have h1 : choices.isEmpty = false := by
      cases choices with
      | nil => exact absurd rfl hne
      | cons a l => rfl
    cases thinking with
    | true =>
      refine ⟨⟨thinkingContent name (altsOf choices), save_dir,
        "thinking_" ++ name ++ ".gbnf"⟩, ?_, rfl, by simp, by simp,
        fun s => altLang_exact choices s⟩
      simp [multiple_choice_grammar, h1, hid]
    | false =>
      refine ⟨⟨plainContent name (altsOf choices), save_dir, name ++ ".gbnf"⟩,
        ?_, rfl, by simp, by simp, fun s => altLang_exact choices s⟩
      simp [multiple_choice_grammar, h1, hid]

/-- Instance of `multiple_choice_grammar_cases`: two concrete choices and
a valid name, thinking disabled. -/
theorem multiple_choice_grammar_cases_witness :
    ∃ out, multiple_choice_grammar ["yes", "no"] "grammars" "ans" false = Except.ok out ∧
      out.saveDir = "grammars" ∧ out.filename = "ans.gbnf" ∧
      out.content = plainContent "ans" (altsOf ["yes", "no"]) ∧
      (∀ s, altLangMem (["yes", "no"].map esc) s ↔ s ∈ ["yes", "no"]) := by
  obtain ⟨out, h1, h2, h3, h4, h5⟩ :=
    (multiple_choice_grammar_cases ["yes", "no"] "grammars" "ans" false).2.2
      (by decide) (by decide)
  exact ⟨out, h1, h2, by rw [h3]; decide, by rw [h4]; simp, h5⟩

/-- C5: the code accepts names that are not valid identifiers.  The
pattern `_IDENT_RE = ^[A-Za-z_][A-Za-z0-9_]*$` is checked with
`re.match`, and Python's `$` also matches just before a single trailing
newline, so the name `"label\n"` — not an identifier — passes
validation: instead of raising the validation error and writing nothing,
`multiple_choice_grammar` succeeds and writes a file named
`label\n.gbnf`, its embedded newline corrupting both the file name and
the `label\n ::= ...` rule header of the produced grammar text.  This
contradicts the source's own error message ("name must be a valid rule
identifier"); the intended anchor is `\Z` (or `re.fullmatch`). -/
theorem c5_newline_name_accepted :
    isValidIdent "label\n" = true ∧
    multiple_choice_grammar ["a"] "grammars" "label\n" false =
      Except.ok ⟨plainContent "label\n" (altsOf ["a"]), "grammars", "label\n.gbnf"⟩ ∧
    ("label\n".data.all (fun c => c.isAlphanum || c = '_') = false) :=
  ⟨by decide, rfl, by decide⟩

/-! ### Request construction (`client.get_response` kwargs)

The request body is assembled as Python dicts: `kwargs` gains
`max_tokens` and `temperature` when given; `extra_body` gains `grammar`
when given and the legacy alias `n_predict` whenever `max_tokens` is
given; `extra_body` is attached to `kwargs` only when non-empty.  Dicts
of string keys are embedded as association lists; the float temperature
is carried opaquely as its rendering. -/

inductive JVal
  | int (n : Int)
  | temp (r : String)
  | str (s : String)
  | obj (fields : List (String × JVal))

def lookupField (fields : List (String × JVal)) (k : String) : Option JVal :=
  match fields.find? (fun kv => kv.1 = k) with
  | some kv => some kv.2
  | none => none

/-- The kwargs-building section of `get_response`. -/
def buildKwargs (max_tokens : Option Int) (temperature : Option String)
    (grammar : Option String) : List (String × JVal) :=
  let kwargs : List (String × JVal) := []
  let kwargs := match max_tokens with
    | some v => kwargs ++ [("max_tokens", JVal.int v)]
    | none => kwargs
  let kwargs := match temperature with
    | some t => kwargs ++ [("temperature", JVal.temp t)]
    | none => kwargs
  let extra_body : List (String × JVal) := []
  let extra_body := match grammar with
    | some g => extra_body ++ [("grammar", JVal.str g)]
    | none => extra_body
  let extra_body := match max_tokens with
    | some v => extra_body ++ [("n_predict", JVal.int v)]
    | none => extra_body
  if extra_body.isEmpty then kwargs else kwargs ++ [("extra_body", JVal.obj extra_body)]

/-- The fields of the `extra_body` dict of a built request, when present. -/
def extraBodyOf (kwargs : List (String × JVal)) : Option (List (String × JVal)) :=
  match lookupField kwargs "extra_body" with
  | some (JVal.obj fields) => some fields
  | _ => none

/-- C8: when a token cap is given the request carries both `max_tokens`
and the legacy alias `n_predict` with the same value; when none is given
neither field is present anywhere in the request; and a given grammar
string is embedded in the request's `extra_body`. -/
theorem c8_request_fields (max_tokens : Option Int) (temperature : Option String)
    (grammar : Option String) :
    (∀ v, max_tokens = some v →
      lookupField (buildKwargs max_tokens temperature grammar) "max_tokens" =
        some (JVal.int v) ∧
      ∃ eb, extraBodyOf (buildKwargs max_tokens temperature grammar) = some eb ∧
        lookupField eb "n_predict" = some (JVal.int v)) ∧
    (max_tokens = none →
      lookupField (buildKwargs max_tokens temperature grammar) "max_tokens" = none ∧
      (∀ eb, extraBodyOf (buildKwargs max_tokens temperature grammar) = some eb →
        lookupField eb "n_predict" = none)) ∧
    (∀ g, grammar = some g →
      ∃ eb, extraBodyOf (buildKwargs max_tokens temperature grammar) = some eb ∧
        lookupField eb "grammar" = some (JVal.str g)) := by
  refine ⟨?_, ?_, ?_⟩
  · intro v hv
    subst hv
    cases temperature <;> cases grammar <;>
      simp [buildKwargs, lookupField, extraBodyOf, List.find?]
  · intro hn
    subst hn
    cases temperature <;> cases grammar <;>
      simp [buildKwargs, lookupField, extraBodyOf, List.find?]
  · intro g hg
    subst hg
    cases temperature <;> cases max_tokens <;>
      simp [buildKwargs, lookupField, extraBodyOf, List.find?]

/-- Closed witness for `c8_request_fields`: with a token cap of 64 both
fields carry 64. -/
theorem c8_request_fields_witness :
    lookupField (buildKwargs (some 64) none none) "max_tokens" = some (JVal.int 64) ∧
    ∃ eb, extraBodyOf (buildKwargs (some 64) none none) = some eb ∧
      lookupField eb "n_predict" = some (JVal.int 64) :=
  (c8_request_fields (some 64) none none).1 64 rfl

/-! ### Context-manager protocol (`ServerHandle.__enter__` / `__exit__`)

Python's `with` statement calls `__enter__`, runs the block, and calls
`__exit__(exc_type, exc, tb)` on every exit path — `(None, None, None)`
on normal completion, the exception triple when the block raises (the
exception then propagates, since `__exit__` returns `None`).  The block
body is modelled as a function from the process state at entry to an
outcome (normal value or raised exception) and the process state at the
moment the block is left. -/

inductive BodyOutcome (A E : Type)
  | norm (a : A)
  | exc (e : E)

/-- `ServerHandle.__enter__`: returns `self`. -/
def handleEnter (st : ProcState) : ProcState := st

/-- `ServerHandle.__exit__`: ignores the exception triple and calls
`self.terminate()`. -/
def handleExit (E : TermEnv) (excInfo : Option Unit) (st : ProcState) :
    ProcState × List Effect :=
  terminate E st

/-- Semantics of `with handle: body` for a `ServerHandle`. -/
def withHandle {A Er : Type} (E : TermEnv) (st0 : ProcState)
    (body : ProcState → BodyOutcome A Er × ProcState) :
    BodyOutcome A Er × (ProcState × List Effect) :=
  let h := handleEnter st0
  match body h with
  | (BodyOutcome.norm a, st1) => (BodyOutcome.norm a, handleExit E none st1)
  | (BodyOutcome.exc e, st1) => (BodyOutcome.exc e, handleExit E (some ()) st1)

/-- C7: entering the managed block returns the handle itself, and on every
exit path — normal completion or a raised exception — `terminate` is
invoked on the handle, and the block outcome is passed through unchanged. -/
theorem c7_context_manager {A Er : Type} (E : TermEnv) (st0 : ProcState)
    (body : ProcState → BodyOutcome A Er × ProcState) :
    handleEnter st0 = st0 ∧
    (withHandle E st0 body).1 = (body st0).1 ∧
    (withHandle E st0 body).2 = terminate E (body st0).2 := by
  refine ⟨rfl, ?_, ?_⟩ <;>
    · unfold withHandle handleEnter handleExit
      rcases hb : body st0 with ⟨outcome, st1⟩
      cases outcome <;> simp [hb]

/-! ### Server launch (`server.start_server` and `server._build_args`)

`start_server` validates its configuration, optionally adjusts the
environment (Homebrew path on Darwin, caller-supplied variables), builds
the argument list (which fails when the binary is not on the search
path), spawns the child, and runs the health wait; if the wait raises it
prints any remaining captured output, sends SIGTERM to the child's
process group and re-raises.  The outside world (filesystem, `which`,
platform, assigned pid, health observations, leftover output) is an
oracle record, and everything the function does to the world is returned
as an effect list.  Lean's types make the `isinstance` checks on
`extra_args`/`env` hold by construction, and `extra_args` is modelled
after its `str` conversion; `textwrap.shorten` on the printed tail is
abstracted to printing the captured text. -/

structure Config where
  model_path : String
  n_ctx : Int
  n_gpu_layers : Int
  port : Int := 8080
  host : String := "127.0.0.1"
  threads : Option Int := none
  http_threads : Option Int := none
  slots : Option Int := none
  cors : Option String := none
  log_disable : Bool := false
  log_colors : Option Bool := none
  verbose : Bool := false
  api_key : Option String := none
  extra_args : Option (List String) := none
  envVars : Option (List (String × String)) := none
  stream_logs : Bool := true
  health_timeout_repr : String := "30.0"
  ensure_homebrew_path : Bool := true

inductive StartErr
  | valueError (m : String)
  | fileNotFound (m : String)
  | launch (m : String)
  | timeout (m : String)
deriving DecidableEq, Repr

/-- `server._build_args`: resolves the binary and assembles the argument
list, honouring Python truthiness for `cors`, `api_key` and
`extra_args`. -/
def build_args (which : Option String) (cfg : Config) : Except StartErr (List String) :=
  match which with
  | none =>
    Except.error (StartErr.fileNotFound
      "'llama-server' not found in PATH. Install it or add to PATH.")
  | some binpath =>
    Except.ok
      ([binpath, "-m", cfg.model_path, "-c", toString cfg.n_ctx,
        "-ngl", toString cfg.n_gpu_layers,
        "--port", toString cfg.port, "--host", cfg.host]
       ++ (match cfg.threads with | some t => ["-t", toString t] | none => [])
       ++ (match cfg.http_threads with
           | some t => ["--threads-http", toString t] | none => [])
       ++ (match cfg.slots with | some s2 => ["--slots", toString s2] | none => [])
       ++ (match cfg.cors with
           | some c => if c.isEmpty then [] else ["--cors", c] | none => [])
       ++ (if cfg.log_disable then ["--log-disable"] else [])
       ++ (match cfg.log_colors with | some false => ["--log-colors=0"] | _ => [])
       ++ (if cfg.verbose then ["-v"] else [])
       ++ (match cfg.api_key with
           | some k => if k.isEmpty then [] else ["--api-key", k] | none => [])
       ++ (match cfg.extra_args with
           | some xs => if xs.isEmpty then [] else xs | none => []))

/-- A provided optional count failing the `val <= 0` test. -/
def badOptInt : Option Int → Bool
  | none => false
  | some v => v ≤ 0

def posIntMsg (n : String) (v : Int) : String :=
  n ++ " must be a positive integer (got " ++ toString v ++ ")"

def optPosIntMsg (n : String) (o : Option Int) : String :=
  n ++ " must be a positive integer if provided (got " ++
    (match o with | some v => toString v | none => "None") ++ ")"

/-- Oracle for everything `start_server` observes about the world. -/
structure StartEnv where
  pathExists : String → Bool
  which : Option String
  isDarwin : Bool
  pid : Nat
  healthObs : Nat → HealthObs
  healthFuel : Nat
  leftover : String

structure ServerHandleInit where
  pid : Nat
  port : Int
  log_thread : Bool
deriving DecidableEq, Repr

def start_server (E : StartEnv) (cfg : Config) :
    Except StartErr ServerHandleInit × List Effect :=
  if cfg.model_path = "" then
    (Except.error (StartErr.valueError "model_path must be a non-empty string"), [])
  else if ¬ E.pathExists cfg.model_path then
    (Except.error (StartErr.fileNotFound
      ("model_path does not exist: " ++ cfg.model_path)), [])
  else if cfg.n_ctx ≤ 0 then
    (Except.error (StartErr.valueError (posIntMsg "n_ctx" cfg.n_ctx)), [])
  else if cfg.n_gpu_layers ≤ 0 then
    (Except.error (StartErr.valueError (posIntMsg "n_gpu_layers" cfg.n_gpu_layers)), [])
  else if cfg.port ≤ 0 then
    (Except.error (StartErr.valueError (posIntMsg "port" cfg.port)), [])
  else if cfg.port > 65535 then
    (Except.error (StartErr.valueError "port must be <= 65535"), [])
  else if badOptInt cfg.threads then
    (Except.error (StartErr.valueError (optPosIntMsg "threads" cfg.threads)), [])
  else if badOptInt cfg.http_threads then
    (Except.error (StartErr.valueError (optPosIntMsg "http_threads" cfg.http_threads)), [])
  else if badOptInt cfg.slots then
    (Except.error (StartErr.valueError (optPosIntMsg "slots" cfg.slots)), [])
  else
    let envEffs : List Effect :=
      (if cfg.ensure_homebrew_path && E.isDarwin then [Effect.prependHomebrewPath]
       else [])
      ++ (match cfg.envVars with
          | some kvs =>
            if kvs.isEmpty then [] else kvs.map (fun kv => Effect.setEnv kv.1 kv.2)
          | none => [])
    match build_args E.which cfg with
    | Except.error e => (Except.error e, envEffs)
    | Except.ok args =>
      let effs := envEffs ++ [Effect.spawn args]
      match (wait_health cfg.health_timeout_repr (toString cfg.port)
          E.healthObs E.healthFuel).1 with
      | WaitOutcome.healthy =>
        (Except.ok ⟨E.pid, cfg.port, cfg.stream_logs && ¬ cfg.log_disable⟩, effs)
      | WaitOutcome.launchError m =>
        (Except.error (StartErr.launch m),
         effs ++ (if E.leftover.isEmpty then [] else [Effect.printTail E.leftover])
              ++ [Effect.killpg E.pid Sig.sigterm])
      | WaitOutcome.timeoutError m =>
        (Except.error (StartErr.timeout m),
         effs ++ (if E.leftover.isEmpty then [] else [Effect.printTail E.leftover])
              ++ [Effect.killpg E.pid Sig.sigterm])

/-- C2: a configuration whose model path is empty or does not exist, or
whose context size, GPU layer count or port is not positive, or whose
port exceeds 65535, or with a provided but non-positive thread,
HTTP-thread or slot count, is rejected with a validation error
(`ValueError`/`FileNotFoundError`) before anything is done to the world:
no environment change, no spawn, so no child process is created. -/
theorem c2_validation_rejects_before_spawn (E : StartEnv) (cfg : Config)
    (h : cfg.model_path = "" ∨ E.pathExists cfg.model_path = false ∨
         cfg.n_ctx ≤ 0 ∨ cfg.n_gpu_layers ≤ 0 ∨ cfg.port ≤ 0 ∨ 65535 < cfg.port ∨
         badOptInt cfg.threads = true ∨ badOptInt cfg.http_threads = true ∨
         badOptInt cfg.slots = true) :
    (∃ m, (start_server E cfg).1 = Except.error (StartErr.valueError m) ∨
          (start_server E cfg).1 = Except.error (StartErr.fileNotFound m)) ∧
    (start_server E cfg).2 = [] := by
  by_cases h1 : cfg.model_path = ""
  · simp only [start_server, if_pos h1]
    exact ⟨⟨_, Or.inl rfl⟩, trivial⟩
  by_cases h2 : ¬ E.pathExists cfg.model_path
  · simp only [start_server, if_neg h1, if_pos h2]
    exact ⟨⟨_, Or.inr rfl⟩, trivial⟩
  by_cases h3 : cfg.n_ctx ≤ 0
  · simp only [start_server, if_neg h1, if_neg h2, if_pos h3]
    exact ⟨⟨_, Or.inl rfl⟩, trivial⟩
  by_cases h4 : cfg.n_gpu_layers ≤ 0
  · simp only [start_server, if_neg h1, if_neg h2, if_neg h3, if_pos h4]
    exact ⟨⟨_, Or.inl rfl⟩, trivial⟩
  by_cases h5 : cfg.port ≤ 0
  · simp only [start_server, if_neg h1, if_neg h2, if_neg h3, if_neg h4, if_pos h5]
    exact ⟨⟨_, Or.inl rfl⟩, trivial⟩
  by_cases h6 : cfg.port > 65535
  · simp only [start_server, if_neg h1, if_neg h2, if_neg h3, if_neg h4, if_neg h5,
      if_pos h6]
    exact ⟨⟨_, Or.inl rfl⟩, trivial⟩
  by_cases h7 : badOptInt cfg.threads = true
  · simp only [start_server, if_neg h1, if_neg h2, if_neg h3, if_neg h4, if_neg h5,
      if_neg h6, if_pos h7]
    exact ⟨⟨_, Or.inl rfl⟩, trivial⟩
  by_cases h8 : badOptInt cfg.http_threads = true
  · simp only [start_server, if_neg h1, if_neg h2, if_neg h3, if_neg h4, if_neg h5,
      if_neg h6, if_neg h7, if_pos h8]
    exact ⟨⟨_, Or.inl rfl⟩, trivial⟩
  by_cases h9 : badOptInt cfg.slots = true
  · simp only [start_server, if_neg h1, if_neg h2, if_neg h3, if_neg h4, if_neg h5,
      if_neg h6, if_neg h7, if_neg h8, if_pos h9]
    exact ⟨⟨_, Or.inl rfl⟩, trivial⟩
  exfalso
  rcases h with h | h | h | h | h | h | h | h | h
  · exact h1 h
  · exact h2 (by simp [h])
  · exact h3 h
  · exact h4 h
  · exact h5 h
  · exact h6 h
  · exact h7 h
  · exact h8 h
  · exact h9 h

/-- Closed witness for `c2_validation_rejects_before_spawn`: a context
size of 0 is rejected with no effect on the world. -/
theorem c2_validation_rejects_before_spawn_witness :
    (∃ m, (start_server
        ⟨fun _ => true, some "llama-server", false, 7, fun _ => ⟨none, true⟩, 1, ""⟩
        { model_path := "model.gguf", n_ctx := 0, n_gpu_layers := 99 }).1 =
          Except.error (StartErr.valueError m) ∨
      (start_server
        ⟨fun _ => true, some "llama-server", false, 7, fun _ => ⟨none, true⟩, 1, ""⟩
        { model_path := "model.gguf", n_ctx := 0, n_gpu_layers := 99 }).1 =
          Except.error (StartErr.fileNotFound m)) ∧
    (start_server
        ⟨fun _ => true, some "llama-server", false, 7, fun _ => ⟨none, true⟩, 1, ""⟩
        { model_path := "model.gguf", n_ctx := 0, n_gpu_layers := 99 }).2 = [] :=
  c2_validation_rejects_before_spawn
    ⟨fun _ => true, some "llama-server", false, 7, fun _ => ⟨none, true⟩, 1, ""⟩
    { model_path := "model.gguf", n_ctx := 0, n_gpu_layers := 99 }
    (Or.inr (Or.inr (Or.inl (by norm_num))))

/-- C10: when the configuration passes validation and the binary
resolves, so the child is spawned, but the health wait does not report
healthy, `start_server` re-raises the health wait's own error (launch or
timeout), sends SIGTERM to the spawned child's process group, and never
returns a handle. -/
theorem c10_failed_health_kills_group (E : StartEnv) (cfg : Config)
    (h1 : cfg.model_path ≠ "") (h2 : E.pathExists cfg.model_path = true)
    (h3 : 0 < cfg.n_ctx) (h4 : 0 < cfg.n_gpu_layers) (h5 : 0 < cfg.port)
    (h6 : cfg.port ≤ 65535) (h7 : badOptInt cfg.threads = false)
    (h8 : badOptInt cfg.http_threads = false) (h9 : badOptInt cfg.slots = false)
    (b : String) (hb : E.which = some b)
    (hfail : (wait_health cfg.health_timeout_repr (toString cfg.port)
        E.healthObs E.healthFuel).1 ≠ WaitOutcome.healthy) :
    ((∃ m, (wait_health cfg.health_timeout_repr (toString cfg.port)
          E.healthObs E.healthFuel).1 = WaitOutcome.launchError m ∧
        (start_server E cfg).1 = Except.error (StartErr.launch m)) ∨
     (∃ m, (wait_health cfg.health_timeout_repr (toString cfg.port)
          E.healthObs E.healthFuel).1 = WaitOutcome.timeoutError m ∧
        (start_server E cfg).1 = Except.error (StartErr.timeout m))) ∧
    Effect.killpg E.pid Sig.sigterm ∈ (start_server E cfg).2 ∧
    (∀ hndl, (start_server E cfg).1 ≠ Except.ok hndl) := by
  have hn1 : ¬ cfg.model_path = "" := h1
  have hn2 : ¬ ¬ (E.pathExists cfg.model_path = true) := by simp [h2]
  have hn3 : ¬ cfg.n_ctx ≤ 0 := by omega
  have hn4 : ¬ cfg.n_gpu_layers ≤ 0 := by omega
  have hn5 : ¬ cfg.port ≤ 0 := by omega
  have hn6 : ¬ cfg.port > 65535 := by omega
  have hn7 : ¬ badOptInt cfg.threads = true := by simp [h7]
  have hn8 : ¬ badOptInt cfg.http_threads = true := by simp [h8]
  have hn9 : ¬ badOptInt cfg.slots = true := by simp [h9]
  have hargs : ∃ args, build_args E.which cfg = Except.ok args := by
    rw [hb]; exact ⟨_, rfl⟩
  obtain ⟨args, hargs⟩ := hargs
  rcases hw : (wait_health cfg.health_timeout_repr (toString cfg.port)
      E.healthObs E.healthFuel).1 with _ | m | m
  · exact absurd hw hfail
  · have hss : (start_server E cfg).1 = Except.error (StartErr.launch m) ∧
        Effect.killpg E.pid Sig.sigterm ∈ (start_server E cfg).2 := by
      simp only [start_server, if_neg hn1, if_neg hn2, if_neg hn3, if_neg hn4,
        if_neg hn5, if_neg hn6, if_neg hn7, if_neg hn8, if_neg hn9]
      simp only [hargs]
      simp [hw]
    exact ⟨Or.inl ⟨m, rfl, hss.1⟩, hss.2, fun hndl => by rw [hss.1]; simp⟩
  · have hss : (start_server E cfg).1 = Except.error (StartErr.timeout m) ∧
        Effect.killpg E.pid Sig.sigterm ∈ (start_server E cfg).2 := by
      simp only [start_server, if_neg hn1, if_neg hn2, if_neg hn3, if_neg hn4,
        if_neg hn5, if_neg hn6, if_neg hn7, if_neg hn8, if_neg hn9]
      simp only [hargs]
      simp [hw]
    exact ⟨Or.inr ⟨m, rfl, hss.1⟩, hss.2, fun hndl => by rw [hss.1]; simp⟩

/-- Closed witness for `c10_failed_health_kills_group`: a child that is
never seen healthy within the window; the group receives SIGTERM and an
error, not a handle, comes back. -/
theorem c10_failed_health_kills_group_witness :
    ((∃ m, (wait_health "30.0" (toString (8080 : Int))
          (fun _ => ⟨none, false⟩) 2).1 = WaitOutcome.launchError m ∧
        (start_server
          ⟨fun _ => true, some "llama-server", false, 42, fun _ => ⟨none, false⟩, 2, ""⟩
          { model_path := "model.gguf", n_ctx := 4096, n_gpu_layers := 99 }).1 =
          Except.error (StartErr.launch m)) ∨
     (∃ m, (wait_health "30.0" (toString (8080 : Int))
          (fun _ => ⟨none, false⟩) 2).1 = WaitOutcome.timeoutError m ∧
        (start_server
          ⟨fun _ => true, some "llama-server", false, 42, fun _ => ⟨none, false⟩, 2, ""⟩
          { model_path := "model.gguf", n_ctx := 4096, n_gpu_layers := 99 }).1 =
          Except.error (StartErr.timeout m))) ∧
    Effect.killpg 42 Sig.sigterm ∈
      (start_server
        ⟨fun _ => true, some "llama-server", false, 42, fun _ => ⟨none, false⟩, 2, ""⟩
        { model_path := "model.gguf", n_ctx := 4096, n_gpu_layers := 99 }).2 ∧
    (∀ hndl, (start_server
        ⟨fun _ => true, some "llama-server", false, 42, fun _ => ⟨none, false⟩, 2, ""⟩
        { model_path := "model.gguf", n_ctx := 4096, n_gpu_layers := 99 }).1 ≠
        Except.ok hndl) :=
  c10_failed_health_kills_group
    ⟨fun _ => true, some "llama-server", false, 42, fun _ => ⟨none, false⟩, 2, ""⟩
    { model_path := "model.gguf", n_ctx := 4096, n_gpu_layers := 99 }
    (by decide) rfl (by norm_num) (by norm_num) (by norm_num) (by norm_num)
    rfl rfl rfl "llama-server" rfl (by decide)

end LocalLLM
